import Mathlib

/-!
Verification of the tic-tac-toe game logic of `willowtown0576/tic-tac-toe`.

The Rust sources live in `src/types.rs` (the `GameLogic` module: board type,
win detection, move validation and application) and `src/main.rs` (the Dioxus
UI component, which contains an inline `check_winner` closure duplicating the
logic of `types.rs`). Every definition below is a direct translation of the
corresponding Rust item; names follow the source.
-/

namespace TicTacToe

/-- Translation of `enum Player { X, O }` from `src/types.rs`. -/
inductive Player : Type where
  | X : Player
  | O : Player
deriving DecidableEq, Repr

/-- Translation of `Player::next` from `src/types.rs`:
`X` maps to `O` and `O` maps to `X`. -/
def Player.next : Player → Player
  | Player.X => Player.O
  | Player.O => Player.X

/-- Translation of `enum GameState { Playing, Won(Player), Draw }` from
`src/types.rs`. -/
inductive GameState : Type where
  | Playing : GameState
  | Won : Player → GameState
  | Draw : GameState
deriving DecidableEq, Repr

/-- Translation of `type Board = [[Option<Player>; 3]; 3]`: a 3×3 grid of
optional markers, indexed first by row and then by column. -/
def Board : Type := Fin 3 → Fin 3 → Option Player

instance : DecidableEq Board :=
  inferInstanceAs (DecidableEq (Fin 3 → Fin 3 → Option Player))

/-- Translation of `GameLogic::check_line`: a line of three cells yields its
winner when all three cells hold the same marker, and `none` otherwise. -/
def check_line : List (Option Player) → Option Player
  | [some a, some b, some c] => if a = b ∧ b = c then some a else none
  | _ => none

/-- Translation of `GameLogic::check_winner` from `src/types.rs`: scan the
three rows top-to-bottom, then the three columns left-to-right, then the main
diagonal, then the anti-diagonal, returning the winner of the first winning
line found. The `for` loops over `0..3` with early `return` are rendered as
`List.findSome?` over `List.finRange 3`. -/
def check_winner (board : Board) : Option Player :=
  match (List.finRange 3).findSome?
      (fun row => check_line [board row 0, board row 1, board row 2]) with
  | some winner => some winner
  | none =>
    match (List.finRange 3).findSome?
        (fun col => check_line [board 0 col, board 1 col, board 2 col]) with
    | some winner => some winner
    | none =>
      match check_line [board 0 0, board 1 1, board 2 2] with
      | some winner => some winner
      | none =>
        match check_line [board 0 2, board 1 1, board 2 0] with
        | some winner => some winner
        | none => none

/-- Translation of `GameLogic::is_board_full`:
`board.iter().flatten().all(|cell| cell.is_some())`. -/
def is_board_full (board : Board) : Bool :=
  (List.finRange 3).all (fun row =>
    (List.finRange 3).all (fun col => (board row col).isSome))

/-- Translation of `GameLogic::check_game_state` from `src/types.rs`: report
a win when `check_winner` finds one, otherwise `Draw` on a full board and
`Playing` on a board with an empty cell. -/
def check_game_state (board : Board) : GameState :=
  match check_winner board with
  | some winner => GameState.Won winner
  | none => if is_board_full board then GameState.Draw else GameState.Playing

/-- Translation of `GameLogic::empty_board`: `[[None; 3]; 3]`. -/
def empty_board : Board := fun _ _ => none

/-- Translation of `GameLogic::is_valid_move`:
`row < 3 && col < 3 && board[row][col].is_none()`. The short-circuit `&&`
of Rust is rendered as nested dependent conditionals, so the board is only
indexed once both bounds are established — exactly as in the source, where
`board[row][col]` is evaluated only after both bound checks pass. -/
def is_valid_move (board : Board) (row col : Nat) : Bool :=
  if hr : row < 3 then
    if hc : col < 3 then (board ⟨row, hr⟩ ⟨col, hc⟩).isNone
    else false
  else false

/-- Translation of the error value `"無効な手です"` returned by
`GameLogic::make_move` on an invalid move. -/
def invalid_move_msg : String := "無効な手です"

/-- Translation of `GameLogic::make_move` from `src/types.rs`: reject the
move when `is_valid_move` fails, otherwise return the board with the target
cell set to `Some(player)`. The Rust function takes `mut board` by value
(`Board` is `Copy`), so the update is on a local copy; here it is the
functional update of the cell at `(row, col)`. -/
def make_move (board : Board) (row col : Nat) (player : Player) :
    Except String Board :=
  if is_valid_move board row col then
    Except.ok (fun r c =>
      if (r : Nat) = row ∧ (c : Nat) = col then some player else board r c)
  else
    Except.error invalid_move_msg

/-- Translation of the inline `check_winner` closure of the `TicTacToe`
component in `src/main.rs`: the same row/column/diagonal scan with early
`return GameState::Won(a)`, followed inline by the draw check
`board.iter().flatten().all(|cell| cell.is_some())`. The per-line test is
inlined as in the source (`if let (Some(a), Some(b), Some(c)) = ...` guarded
by `a == b && b == c`). -/
def ui_check_winner (board : Board) : GameState :=
  match (List.finRange 3).findSome? (fun i =>
      match board i 0, board i 1, board i 2 with
      | some a, some b, some c =>
        if a = b ∧ b = c then some (GameState.Won a) else none
      | _, _, _ => none) with
  | some s => s
  | none =>
    match (List.finRange 3).findSome? (fun j =>
        match board 0 j, board 1 j, board 2 j with
        | some a, some b, some c =>
          if a = b ∧ b = c then some (GameState.Won a) else none
        | _, _, _ => none) with
    | some s => s
    | none =>
      match (match board 0 0, board 1 1, board 2 2 with
             | some a, some b, some c =>
               if a = b ∧ b = c then some (GameState.Won a) else none
             | _, _, _ => none) with
      | some s => s
      | none =>
        match (match board 0 2, board 1 1, board 2 0 with
               | some a, some b, some c =>
                 if a = b ∧ b = c then some (GameState.Won a) else none
               | _, _, _ => none) with
        | some s => s
        | none =>
          if (List.finRange 3).all (fun row =>
              (List.finRange 3).all (fun col => (board row col).isSome))
          then GameState.Draw else GameState.Playing

/-- The eight winning lines in the order the spec describes: the three rows
top-to-bottom, the three columns left-to-right, the main diagonal and the
anti-diagonal; each line is the list of its three cells. -/
def winning_lines (board : Board) : List (List (Option Player)) :=
  [ [board 0 0, board 0 1, board 0 2],
    [board 1 0, board 1 1, board 1 2],
    [board 2 0, board 2 1, board 2 2],
    [board 0 0, board 1 0, board 2 0],
    [board 0 1, board 1 1, board 2 1],
    [board 0 2, board 1 2, board 2 2],
    [board 0 0, board 1 1, board 2 2],
    [board 0 2, board 1 1, board 2 0] ]

/-- The board obtained from the empty board by the move `(0, 0)` of `X`;
used as a concrete witness input. -/
def board_after_first_move : Board :=
  fun r c =>
    if (r : Nat) = 0 ∧ (c : Nat) = 0 then some Player.X else empty_board r c

theorem is_board_full_iff (board : Board) :
    is_board_full board = true ↔ ∀ r c : Fin 3, (board r c).isSome = true := by
  unfold is_board_full
  simp [List.all_eq_true, List.mem_finRange]

/-- C8: `Player.next` (the spec's `otherMarker`) is an involution: applying
it twice to either marker returns that marker. -/
theorem player_next_involutive : ∀ p : Player, p.next.next = p := by
  intro p
  cases p <;> rfl

/-- C7: the empty board has every cell unoccupied, and `check_game_state`
(the spec's `deriveStatus`) maps it to `Playing` (the spec's `InProgress`). -/
theorem empty_board_unoccupied_playing :
    (∀ r c : Fin 3, empty_board r c = none) ∧
      check_game_state empty_board = GameState.Playing := by
  refine ⟨fun r c => rfl, ?_⟩
  decide

/-- C1: `is_valid_move board row col` is `true` exactly when `row < 3`,
`col < 3` and the cell at `(row, col)` is unoccupied. -/
theorem is_valid_move_spec (board : Board) (row col : Nat) :
    is_valid_move board row col = true ↔
      ∃ (hr : row < 3) (hc : col < 3), board ⟨row, hr⟩ ⟨col, hc⟩ = none := by
  unfold is_valid_move
  by_cases hr : row < 3
  · by_cases hc : col < 3
    · simp [hr, hc, Option.isNone_iff_eq_none]
    · simp [hr, hc]
  · simp [hr]

theorem is_valid_move_spec_witness :
    ∃ (hr : (0 : Nat) < 3) (hc : (0 : Nat) < 3),
      empty_board ⟨0, hr⟩ ⟨0, hc⟩ = none :=
  (is_valid_move_spec empty_board 0 0).mp (by decide)

/-- C9: `is_valid_move` is total, and for out-of-range coordinates
(`3 ≤ row` or `3 ≤ col`) it returns `false`; the board is never indexed
there (the indexing in the definition sits under proofs of both bounds). -/
theorem is_valid_move_out_of_range (board : Board) (row col : Nat)
    (h : 3 ≤ row ∨ 3 ≤ col) : is_valid_move board row col = false := by
  unfold is_valid_move
  rcases h with h | h
  · simp [Nat.not_lt.mpr h]
  · by_cases hr : row < 3
    · simp [hr, Nat.not_lt.mpr h]
    · simp [hr]

theorem is_valid_move_out_of_range_witness :
    is_valid_move empty_board 3 0 = false :=
  is_valid_move_out_of_range empty_board 3 0 (Or.inl (by decide))

/-- C4: `make_move` (the spec's `applyMove`) returns an error exactly when
`is_valid_move` is `false`, and returns `Ok` with a board exactly when
`is_valid_move` is `true`. -/
theorem make_move_error_iff_invalid (board : Board) (row col : Nat)
    (player : Player) :
    (make_move board row col player = Except.error invalid_move_msg ↔
        is_valid_move board row col = false) ∧
      ((∃ board', make_move board row col player = Except.ok board') ↔
        is_valid_move board row col = true) := by
  unfold make_move
  by_cases h : is_valid_move board row col = true
  · simp [h]
  · have hf : is_valid_move board row col = false := by simpa using h
    simp [hf]

theorem make_move_error_iff_invalid_witness :
    make_move empty_board 5 5 Player.X = Except.error invalid_move_msg :=
  (make_move_error_iff_invalid empty_board 5 5 Player.X).1.mpr (by decide)

/-- C5 counterexample: the error value of `make_move` is the fixed string
`invalid_move_msg`, so no function can recover the attempted `(row, col)`
from it: two rejected moves with different coordinates produce the same
error value. -/
theorem make_move_error_carries_no_coords :
    ¬ ∃ f : String → Nat × Nat,
        ∀ (board : Board) (row col : Nat) (player : Player) (e : String),
          make_move board row col player = Except.error e → f e = (row, col) := by
  rintro ⟨f, hf⟩
  have h1 : make_move empty_board 3 0 Player.X =
      Except.error invalid_move_msg := rfl
  have h2 : make_move empty_board 0 3 Player.X =
      Except.error invalid_move_msg := rfl
  have e1 := hf empty_board 3 0 Player.X invalid_move_msg h1
  have e2 := hf empty_board 0 3 Player.X invalid_move_msg h2
  have : ((3, 0) : Nat × Nat) = (0, 3) := e1.symm.trans e2
  exact absurd this (by decide)

/-- C5 (amended): when `make_move` fails it returns the fixed error string
`invalid_move_msg`, which carries no information about the attempted move. -/
theorem make_move_error_fixed_msg (board : Board) (row col : Nat)
    (player : Player) (h : is_valid_move board row col = false) :
    make_move board row col player = Except.error invalid_move_msg := by
  unfold make_move
  simp [h]

theorem make_move_error_fixed_msg_witness :
    is_valid_move empty_board 3 0 = false ∧
      make_move empty_board 3 0 Player.X = Except.error invalid_move_msg :=
  ⟨rfl, make_move_error_fixed_msg empty_board 3 0 Player.X rfl⟩

/-- C6: when `make_move` succeeds, the returned board holds `some player`
at the target cell and agrees with the input board on every other cell;
the input board itself is a value that `make_move` never mutates. -/
theorem make_move_ok_frame (board : Board) (row col : Nat) (player : Player)
    (board' : Board) (h : make_move board row col player = Except.ok board') :
    (∀ (hr : row < 3) (hc : col < 3),
        board' ⟨row, hr⟩ ⟨col, hc⟩ = some player) ∧
      ∀ r c : Fin 3, ¬((r : Nat) = row ∧ (c : Nat) = col) →
        board' r c = board r c := by
  unfold make_move at h
  by_cases hv : is_valid_move board row col = true
  · rw [if_pos hv] at h
    have hb : (fun (r c : Fin 3) =>
        if (r : Nat) = row ∧ (c : Nat) = col then some player else board r c)
        = board' := by
      exact Except.ok.inj h
    subst hb
    constructor
    · intro hr hc
      simp
    · intro r c hrc
      simp [hrc]
  · rw [if_neg hv] at h
    exact absurd h (by simp)

theorem make_move_ok_frame_witness :
    (∀ (hr : (0 : Nat) < 3) (hc : (0 : Nat) < 3),
        board_after_first_move ⟨0, hr⟩ ⟨0, hc⟩ = some Player.X) ∧
      ∀ r c : Fin 3, ¬((r : Nat) = 0 ∧ (c : Nat) = 0) →
        board_after_first_move r c = empty_board r c :=
  make_move_ok_frame empty_board 0 0 Player.X board_after_first_move rfl

/-- C2: `check_winner` scans exactly the eight winning lines of
`winning_lines` in their listed order (rows top-to-bottom, columns
left-to-right, main diagonal, anti-diagonal) and yields the winner of the
first winning line; `check_game_state` returns `Won` of that marker, and
only falls through to the draw/playing decision when no line wins. -/
theorem check_game_state_first_winning_line (board : Board) :
    check_winner board = (winning_lines board).findSome? check_line ∧
      check_game_state board =
        ((winning_lines board).findSome? check_line).elim
          (if is_board_full board then GameState.Draw else GameState.Playing)
          GameState.Won := by
  have hw : check_winner board = (winning_lines board).findSome? check_line := by
    unfold check_winner winning_lines
    rw [show List.finRange 3 = [(0 : Fin 3), 1, 2] from rfl]
    simp only [List.findSome?_cons, List.findSome?_nil]
    cases check_line [board 0 0, board 0 1, board 0 2] <;>
      cases check_line [board 1 0, board 1 1, board 1 2] <;>
        cases check_line [board 2 0, board 2 1, board 2 2] <;>
          cases check_line [board 0 0, board 1 0, board 2 0] <;>
            cases check_line [board 0 1, board 1 1, board 2 1] <;>
              cases check_line [board 0 2, board 1 2, board 2 2] <;>
                cases check_line [board 0 0, board 1 1, board 2 2] <;>
                  cases check_line [board 0 2, board 1 1, board 2 0] <;>
                    rfl
  refine ⟨hw, ?_⟩
  unfold check_game_state
  rw [hw]
  cases (winning_lines board).findSome? check_line <;> rfl

/-- C3: on a board without a winning line, `check_game_state` returns
`Draw` when all nine cells are occupied and `Playing` when some cell is
unoccupied. -/
theorem check_game_state_no_winner (board : Board)
    (h : check_winner board = none) :
    check_game_state board =
      if ∀ r c : Fin 3, (board r c).isSome = true then GameState.Draw
      else GameState.Playing := by
  unfold check_game_state
  rw [h]
  by_cases hfull : ∀ r c : Fin 3, (board r c).isSome = true
  · rw [if_pos hfull, if_pos ((is_board_full_iff board).mpr hfull)]
  · rw [if_neg hfull,
      if_neg (fun hb => hfull ((is_board_full_iff board).mp hb))]

theorem check_game_state_no_winner_witness :
    check_winner empty_board = none ∧
      check_game_state empty_board =
        if ∀ r c : Fin 3, (empty_board r c).isSome = true then GameState.Draw
        else GameState.Playing :=
  ⟨by decide, check_game_state_no_winner empty_board (by decide)⟩

theorem ui_line_eq (x y z : Option Player) :
    (match x, y, z with
      | some a, some b, some c =>
        if a = b ∧ b = c then some (GameState.Won a) else none
      | _, _, _ => none)
      = (check_line [x, y, z]).map GameState.Won := by
  match x, y, z with
  | some a, some b, some c =>
    by_cases h : a = b ∧ b = c <;> simp [check_line, h]
  | none, _, _ => rfl
  | some _, none, _ => rfl
  | some _, some _, none => rfl

theorem findSome_map {α β γ : Type} (l : List α) (f : α → Option β)
    (g : β → γ) :
    l.findSome? (fun a => (f a).map g) = (l.findSome? f).map g := by
  induction l with
  | nil => rfl
  | cons a as ih =>
    simp only [List.findSome?_cons]
    cases f a <;> simp [ih]

/-- C10: the inline `check_winner` closure of the `TicTacToe` component in
`src/main.rs` computes the same function as `GameLogic::check_game_state`
in `src/types.rs`: they agree on every board. -/
theorem ui_check_winner_eq_check_game_state (board : Board) :
    ui_check_winner board = check_game_state board := by
  unfold ui_check_winner check_game_state check_winner is_board_full
  simp only [ui_line_eq, findSome_map]
  cases (List.finRange 3).findSome?
      (fun row => check_line [board row 0, board row 1, board row 2]) <;>
    try rfl
  cases (List.finRange 3).findSome?
      (fun col => check_line [board 0 col, board 1 col, board 2 col]) <;>
    try rfl
  cases check_line [board 0 0, board 1 1, board 2 2] <;> try rfl
  cases check_line [board 0 2, board 1 1, board 2 0] <;> rfl

end TicTacToe
